import Mathlib

/-!
Verification development for the pylibnidaqmx binding
(src/nidaqmx/libnidaqmx.py).

The binding forwards every operation to the NI-DAQmx vendor driver.  The
driver is a closed binary, so it is modelled here as an uninterpreted
oracle: a map from a DAQmx function name to the integer return code the
driver would produce, together with the behaviour of DAQmxGetErrorString,
the generated error_map table, and the value the driver writes into a
byref output argument.  The binding itself performs no computation on the
arguments it marshals, so the oracle is indexed by function name only.

Python-side effects are made explicit: each embedded function returns its
Python result (or the exception it raises) together with the list of
stderr writes and the list of driver functions invoked, and each Task
method additionally returns the updated Python-side attribute record.
-/

/-- Python exceptions that the embedded code can raise. -/
inductive PyExc where
  | runtimeError (msg : String)
  | keyError (msg : String)
  | valueError (msg : String)
  | typeError (msg : String)
  | assertionError (msg : String)
  | indexError
  | recursionError
deriving DecidableEq

/-- Python values returned by the embedded Task methods.  float64 values
are carried opaquely (the binding never computes with them). -/
inductive PyVal where
  | bool (b : Bool)
  | int (i : Int)
  | float (v : Int)
  | str (s : String)
  | none
deriving DecidableEq

/-- Model of the closed vendor driver (libnidaqmx).  `ret f` is the
return code of the DAQmx function named `f`; `getErrorString rc` is the
pair of the return code of DAQmxGetErrorString and the text it writes
into the supplied buffer; `errorMap` is the table generated from the
vendor header (`error_map` in the source); `wrote f` is the value the
driver writes into the byref output argument of the function named `f`. -/
structure Driver where
  ret : String → Int
  getErrorString : Int → Int × String
  errorMap : Int → Option String
  wrote : String → Int

instance exceptDecEq {ε α : Type} [DecidableEq ε] [DecidableEq α] :
    DecidableEq (Except ε α) := fun a b =>
  match a, b with
  | .ok x, .ok y =>
      if h : x = y then .isTrue (congrArg Except.ok h)
      else .isFalse (fun hh => h (Except.ok.inj hh))
  | .error x, .error y =>
      if h : x = y then .isTrue (congrArg Except.error h)
      else .isFalse (fun hh => h (Except.error.inj hh))
  | .ok _, .error _ => .isFalse Except.noConfusion
  | .error _, .ok _ => .isFalse Except.noConfusion

/-- Result of a driver call as seen from Python: the returned value or
the raised exception, the stderr writes, and the driver functions
invoked (in order). -/
structure CallOutcome where
  result : Except PyExc Int
  stderr : List String
  calls : List String
deriving DecidableEq

/-- Simplified Python repr of a string (quoting only; escape sequences
inside the text are not modelled, no claim depends on them). -/
def pyrepr (s : String) : String := "\x27" ++ s ++ "\x27"

/-- Embeds CHK (libnidaqmx.py lines 182-202).  A zero return code passes
silently; otherwise DAQmxGetErrorString is consulted and a negative code
raises (RuntimeError, or KeyError when error_map misses the code on the
formatted-message path) while a positive code only writes a warning to
stderr.  The textwrap-based layout of the fallback message is abstracted
to the raw buffer text; no claim concerns the message layout. -/
def CHK (drv : Driver) (return_code : Int) (funcname : String) : CallOutcome :=
  if return_code = 0 then
    { result := .ok return_code, stderr := [], calls := [] }
  else
    let es := drv.getErrorString return_code
    let r := es.1
    let bufval := es.2
    if r ≠ 0 then
      if return_code < 0 then
        match drv.errorMap return_code with
        | some errname =>
            { result := .error (.runtimeError (funcname ++ " failed with error " ++
                errname ++ "=" ++ toString return_code ++ ": " ++ pyrepr bufval)),
              stderr := [], calls := ["DAQmxGetErrorString"] }
        | Option.none =>
            { result := .error (.keyError (toString return_code)),
              stderr := [], calls := ["DAQmxGetErrorString"] }
      else
        let warning := (drv.errorMap return_code).getD (toString return_code)
        { result := .ok return_code,
          stderr := [funcname ++ " warning: " ++ warning ++ "\n"],
          calls := ["DAQmxGetErrorString"] }
    else
      let text := "\n  " ++ bufval ++ "\n  " ++ "----------"
      if return_code < 0 then
        { result := .error (.runtimeError (funcname ++ ":" ++ text)),
          stderr := [], calls := ["DAQmxGetErrorString"] }
      else
        { result := .ok return_code,
          stderr := [funcname ++ " warning:" ++ text ++ "\n"],
          calls := ["DAQmxGetErrorString"] }

/-- Embeds CALL (libnidaqmx.py lines 204-216): prefix the name with
DAQmx, invoke the driver function, and feed its return code to CHK.
The unicode-argument conversion is pure marshaling and is not modelled
(the oracle is indexed by function name). -/
def CALL (drv : Driver) (name : String) : CallOutcome :=
  let funcname := "DAQmx" ++ name
  let r := drv.ret funcname
  let c := CHK drv r funcname
  { c with calls := funcname :: c.calls }

/-- A concrete driver for witnesses: every call succeeds with code 0. -/
def drvOk : Driver :=
  { ret := fun _ => 0
    getErrorString := fun _ => (1, "errtext")
    errorMap := fun _ => Option.none
    wrote := fun _ => 0 }

/-- A concrete driver for witnesses: every call returns the fixed code c. -/
def drvConst (c : Int) : Driver :=
  { ret := fun _ => c
    getErrorString := fun _ => (1, "errtext")
    errorMap := fun _ => Option.none
    wrote := fun _ => 7 }

/-!
Task objects.  A Task is a ctypes uInt32 handle plus a handful of
Python-side attributes; only the attributes are modelled (the handle
value lives inside the driver).  Each method is a function from the
driver oracle, the generated header constants and the current attribute
record to a MethodResult.
-/

/-- The DAQmx_Val_* constants used by the embedded methods.  They come
from the generated vendor header (not part of src/), so they are kept
abstract: every theorem is universally quantified over them. -/
structure HeaderConsts where
  DAQmx_Val_Task_Start : Int
  DAQmx_Val_Task_Stop : Int
  DAQmx_Val_Task_Verify : Int
  DAQmx_Val_Task_Commit : Int
  DAQmx_Val_Task_Reserve : Int
  DAQmx_Val_Task_Unreserve : Int
  DAQmx_Val_Task_Abort : Int
  DAQmx_Val_FiniteSamps : Int
  DAQmx_Val_ContSamps : Int
  DAQmx_Val_HWTimedSinglePoint : Int
  DAQmx_Val_Rising : Int
  DAQmx_Val_Falling : Int
  DAQmx_Val_RisingSlope : Int
  DAQmx_Val_FallingSlope : Int
  DAQmx_Val_EnteringWin : Int
  DAQmx_Val_LeavingWin : Int
  DAQmx_Val_PatternMatches : Int
  DAQmx_Val_PatternDoesNotMatch : Int

/-- A concrete constants record for witnesses (the values are irrelevant
to every claim; zeros suffice). -/
def hc0 : HeaderConsts :=
  ⟨0, 0, 0, 0, 0, 0, 0, 0, 0, 0, 0, 0, 0, 0, 0, 0, 0, 0⟩

/-- The Python-side attributes of a Task object (libnidaqmx.py:
name set in __init__, channel_type class attribute, sample_mode and
samples_per_channel set by the configure_timing methods,
_pause_trigger_type set by set_pause_trigger). -/
structure TaskState where
  name : String
  channel_type : Option String
  sample_mode : Option String
  samples_per_channel : Option Int
  pause_trigger_type : Option String
deriving DecidableEq

/-- Result of a Task method: the Python return value or raised
exception, stderr writes, driver functions invoked, and the attribute
record after the method (mutations made before a raise persist, as in
Python). -/
structure MethodResult where
  result : Except PyExc PyVal
  stderr : List String
  calls : List String
  state : TaskState
deriving DecidableEq

/-- A fresh task state as left by Task.__init__ (driver-reported name
abstracted to the requested one; sample_mode set to None). -/
def st0 : TaskState :=
  { name := "", channel_type := Option.none, sample_mode := Option.none
    samples_per_channel := Option.none, pause_trigger_type := Option.none }

namespace Task

/-- Joins the accepted keys with a bar, as in the ValueError message of
Task._get_map_value. -/
def barJoin : List String → String
  | [] => ""
  | [x] => x
  | x :: xs => x ++ "|" ++ barJoin xs

/-- The message of the ValueError raised by Task._get_map_value. -/
def expectedMsg (label : String) (keys : List String) (key : String) : String :=
  "Expected " ++ label ++ " " ++ barJoin keys ++ " but got " ++ pyrepr key

/-- Embeds Task._get_map_value (libnidaqmx.py lines 622-627): look the
key up in the map, raising ValueError naming the accepted keys when it
is absent.  The map is an association list in the literal order of the
Python dict construction (CPython 2 dict ordering is unspecified; only
the key set matters to the claims). -/
def get_map_value (label : String) (map : List (String × Int)) (key : String) :
    Except PyExc Int :=
  match map.lookup key with
  | some v => .ok v
  | Option.none => .error (.valueError (expectedMsg label (map.map Prod.fst) key))

/-- Lifts a CallOutcome into a MethodResult that leaves the attribute
record st and maps an ok return code through f. -/
def liftCall (st : TaskState) (c : CallOutcome) (f : Int → PyVal) : MethodResult :=
  { result := c.result.map f, stderr := c.stderr, calls := c.calls, state := st }

/-- A MethodResult that raises e before any driver call, leaving st. -/
def raiseBefore (st : TaskState) (e : PyExc) : MethodResult :=
  { result := .error e, stderr := [], calls := [], state := st }

/-- Embeds Task.start (line 604): return CALL of StartTask equals 0. -/
def start (drv : Driver) (st : TaskState) : MethodResult :=
  liftCall st (CALL drv "StartTask") (fun r => .bool (r = 0))

/-- Embeds Task.stop (line 620): return CALL of StopTask equals 0. -/
def stop (drv : Driver) (st : TaskState) : MethodResult :=
  liftCall st (CALL drv "StopTask") (fun r => .bool (r = 0))

/-- The state_map of Task.alter_state (lines 685-691). -/
def state_map (hc : HeaderConsts) : List (String × Int) :=
  [("start", hc.DAQmx_Val_Task_Start), ("stop", hc.DAQmx_Val_Task_Stop),
   ("verify", hc.DAQmx_Val_Task_Verify), ("commit", hc.DAQmx_Val_Task_Commit),
   ("reserve", hc.DAQmx_Val_Task_Reserve), ("unreserve", hc.DAQmx_Val_Task_Unreserve),
   ("abort", hc.DAQmx_Val_Task_Abort)]

/-- Embeds Task.alter_state (lines 653-693): translate the state string
through state_map, then return CALL of TaskControl equals 0. -/
def alter_state (hc : HeaderConsts) (drv : Driver) (st : TaskState)
    (state : String) : MethodResult :=
  match get_map_value "state" (state_map hc) state with
  | .error e => raiseBefore st e
  | .ok _state_val => liftCall st (CALL drv "TaskControl") (fun r => .bool (r = 0))

/-- The sample_mode_map shared by the configure_timing methods. -/
def sample_mode_map (hc : HeaderConsts) : List (String × Int) :=
  [("finite", hc.DAQmx_Val_FiniteSamps), ("continuous", hc.DAQmx_Val_ContSamps),
   ("hwtimed", hc.DAQmx_Val_HWTimedSinglePoint)]

/-- Embeds Task.configure_timing_change_detection (lines 893-910). -/
def configure_timing_change_detection (hc : HeaderConsts) (drv : Driver)
    (st : TaskState) (_rising_edge_channel _falling_edge_channel : String)
    (sample_mode : String) (samples_per_channel : Int) : MethodResult :=
  match get_map_value "sample_mode" (sample_mode_map hc) sample_mode with
  | .error e => raiseBefore st e
  | .ok _v =>
      let st2 := { st with samples_per_channel := some samples_per_channel,
                           sample_mode := some sample_mode }
      liftCall st2 (CALL drv "CfgChangeDetectionTiming") (fun r => .bool (r = 0))

/-- Embeds Task.configure_timing_handshaking (lines 913-928). -/
def configure_timing_handshaking (hc : HeaderConsts) (drv : Driver)
    (st : TaskState) (sample_mode : String) (samples_per_channel : Int) :
    MethodResult :=
  match get_map_value "sample_mode" (sample_mode_map hc) sample_mode with
  | .error e => raiseBefore st e
  | .ok _v =>
      let st2 := { st with samples_per_channel := some samples_per_channel,
                           sample_mode := some sample_mode }
      liftCall st2 (CALL drv "CfgHandshakingTiming") (fun r => .bool (r = 0))

/-- Embeds Task.configure_timing_implicit (lines 930-947). -/
def configure_timing_implicit (hc : HeaderConsts) (drv : Driver)
    (st : TaskState) (sample_mode : String) (samples_per_channel : Int) :
    MethodResult :=
  match get_map_value "sample_mode" (sample_mode_map hc) sample_mode with
  | .error e => raiseBefore st e
  | .ok _v =>
      let st2 := { st with samples_per_channel := some samples_per_channel,
                           sample_mode := some sample_mode }
      liftCall st2 (CALL drv "CfgImplicitTiming") (fun r => .bool (r = 0))

/-- The active_edge_map of Task.configure_timing_sample_clock. -/
def active_edge_map (hc : HeaderConsts) : List (String × Int) :=
  [("rising", hc.DAQmx_Val_Rising), ("falling", hc.DAQmx_Val_Falling)]

/-- Embeds Task.configure_timing_sample_clock (lines 949-1007); the
float64 rate is carried opaquely. -/
def configure_timing_sample_clock (hc : HeaderConsts) (drv : Driver)
    (st : TaskState) (_source : String) (_rate : Int) (active_edge : String)
    (sample_mode : String) (samples_per_channel : Int) : MethodResult :=
  match get_map_value "active_edge" (active_edge_map hc) active_edge with
  | .error e => raiseBefore st e
  | .ok _ae =>
      match get_map_value "sample_mode" (sample_mode_map hc) sample_mode with
      | .error e => raiseBefore st e
      | .ok _v =>
          let st2 := { st with samples_per_channel := some samples_per_channel,
                               sample_mode := some sample_mode }
          liftCall st2 (CALL drv "CfgSampClkTiming") (fun r => .bool (r = 0))

/-- The slope_map of Task.configure_trigger_analog_edge_start. -/
def slope_map (hc : HeaderConsts) : List (String × Int) :=
  [("rising", hc.DAQmx_Val_RisingSlope), ("falling", hc.DAQmx_Val_FallingSlope)]

/-- Embeds Task.configure_trigger_analog_edge_start (lines 1025-1053):
returns CALL of CfgAnlgEdgeStartTrig equals 0. -/
def configure_trigger_analog_edge_start (hc : HeaderConsts) (drv : Driver)
    (st : TaskState) (_source : String) (slope : String) (_level : Int) :
    MethodResult :=
  match get_map_value "slope" (slope_map hc) slope with
  | .error e => raiseBefore st e
  | .ok _s => liftCall st (CALL drv "CfgAnlgEdgeStartTrig") (fun r => .bool (r = 0))

/-- The when_map of Task.configure_trigger_analog_window_start. -/
def window_when_map (hc : HeaderConsts) : List (String × Int) :=
  [("entering", hc.DAQmx_Val_EnteringWin), ("leaving", hc.DAQmx_Val_LeavingWin)]

/-- Embeds Task.configure_trigger_analog_window_start (lines 1055-1087):
returns CALL of CfgAnlgWindowStartTrig equals 0. -/
def configure_trigger_analog_window_start (hc : HeaderConsts) (drv : Driver)
    (st : TaskState) (_source : String) (when : String) (_top _bottom : Int) :
    MethodResult :=
  match get_map_value "when" (window_when_map hc) when with
  | .error e => raiseBefore st e
  | .ok _w => liftCall st (CALL drv "CfgAnlgWindowStartTrig") (fun r => .bool (r = 0))

/-- The edge_map of Task.configure_trigger_digital_edge_start. -/
def edge_map (hc : HeaderConsts) : List (String × Int) :=
  [("rising", hc.DAQmx_Val_Rising), ("falling", hc.DAQmx_Val_Falling)]

/-- Embeds Task.configure_trigger_digital_edge_start (lines 1089-1110):
returns CALL of CfgDigEdgeStartTrig directly (the raw return code, with
no comparison against 0). -/
def configure_trigger_digital_edge_start (hc : HeaderConsts) (drv : Driver)
    (st : TaskState) (_source : String) (edge : String) : MethodResult :=
  match get_map_value "edge" (edge_map hc) edge with
  | .error e => raiseBefore st e
  | .ok _ev => liftCall st (CALL drv "CfgDigEdgeStartTrig") (fun r => .int r)

/-- The when_map of Task.configure_trigger_digital_pattern_start. -/
def pattern_when_map (hc : HeaderConsts) : List (String × Int) :=
  [("matches", hc.DAQmx_Val_PatternMatches),
   ("does_not_match", hc.DAQmx_Val_PatternDoesNotMatch)]

/-- Embeds Task.configure_trigger_digital_pattern_start (lines
1112-1138): returns CALL of CfgDigPatternStartTrig directly (the raw
return code). -/
def configure_trigger_digital_pattern_start (hc : HeaderConsts) (drv : Driver)
    (st : TaskState) (_source _pat : String) (when : String) : MethodResult :=
  match get_map_value "when" (pattern_when_map hc) when with
  | .error e => raiseBefore st e
  | .ok _w => liftCall st (CALL drv "CfgDigPatternStartTrig") (fun r => .int r)

/-- Embeds Task.configure_trigger_disable_start (lines 1140-1145):
returns CALL of DisableStartTrig directly (the raw return code). -/
def configure_trigger_disable_start (drv : Driver) (st : TaskState) :
    MethodResult :=
  liftCall st (CALL drv "DisableStartTrig") (fun r => .int r)

end Task

namespace Task

/-- The accepted channel types (libnidaqmx.py line 535). -/
def validChannelTypes : List String := ["AI", "AO", "DI", "DO", "CI", "CO"]

/-- Embeds Task.set_channel_type (lines 534-539): assert the type is one
of the six known ones (an AssertionError otherwise), set it when unset,
accept a repeat of the same value, and raise ValueError on a different
value. -/
def set_channel_type (st : TaskState) (t : String) : MethodResult :=
  if t ∈ validChannelTypes then
    match st.channel_type with
    | Option.none =>
        { result := .ok .none, stderr := [], calls := [],
          state := { st with channel_type := some t } }
    | some ct =>
        if ct = t then { result := .ok .none, stderr := [], calls := [], state := st }
        else raiseBefore st (.valueError ("Expected channel type " ++ pyrepr ct ++
               " but got " ++ pyrepr t))
  else raiseBefore st (.assertionError (pyrepr t))

/-- Embeds the Task.channel_io_type property (lines 541-546): TypeError
when no channel has been created, otherwise input when the second letter
of the channel type is I and output otherwise (indexing a too-short
string would be an IndexError, as in Python). -/
def channel_io_type (st : TaskState) : Except PyExc String :=
  match st.channel_type with
  | Option.none => .error (.typeError
      "Task: cannot determine channel I/O type when no channels have been created.")
  | some t =>
      match t.data with
      | _ :: c :: _ => .ok (if c = 'I' then "input" else "output")
      | _ => .error .indexError

/-- Python str.title for the single-word strings used here: first
character upper-cased, the rest lower-cased. -/
def strTitle (s : String) : String :=
  match s.data with
  | [] => ""
  | c :: cs => String.mk (c.toUpper :: cs.map Char.toLower)

/-- Python str(x) for an optional channel type: None prints as None. -/
def strOfOptStr : Option String → String
  | some s => s
  | Option.none => "None"

/-- A getter that invokes one driver function and returns the value the
driver wrote into the byref output; attributes are untouched. -/
def passThroughGet (drv : Driver) (st : TaskState) (funcname : String)
    (f : Int → PyVal) : MethodResult :=
  let c := CALL drv funcname
  liftCall st c (fun _r => f (drv.wrote ("DAQmx" ++ funcname)))

/-- Embeds Task.get_number_of_channels (lines 629-635). -/
def get_number_of_channels (drv : Driver) (st : TaskState) : MethodResult :=
  passThroughGet drv st "GetTaskNumChans" (fun v => .int v)

/-- Embeds Task.get_buffer_size (lines 1219-1237): the function name is
assembled from the channel I/O type; the TypeError of channel_io_type
propagates when no channel exists. -/
def get_buffer_size (drv : Driver) (st : TaskState) (on_board : Bool) :
    MethodResult :=
  match channel_io_type st with
  | .error e => raiseBefore st e
  | .ok io =>
      if on_board then
        passThroughGet drv st ("GetBuf" ++ strTitle io ++ "OnbrdBufSize") (fun v => .int v)
      else
        passThroughGet drv st ("GetBuf" ++ strTitle io ++ "BufSize") (fun v => .int v)

/-- Embeds Task.get_max (lines 1247-1255): the function name is
Get{channel_type}Max; the float64 output is carried opaquely. -/
def get_max (drv : Driver) (st : TaskState) (_channel_name : String) :
    MethodResult :=
  passThroughGet drv st ("Get" ++ strOfOptStr st.channel_type ++ "Max") (fun v => .float v)

/-- Embeds Task.get_min (lines 1267-1275). -/
def get_min (drv : Driver) (st : TaskState) (_channel_name : String) :
    MethodResult :=
  passThroughGet drv st ("Get" ++ strOfOptStr st.channel_type ++ "Min") (fun v => .float v)

/-- Embeds Task.get_high (lines 1287-1292). -/
def get_high (drv : Driver) (st : TaskState) (_channel_name : String) :
    MethodResult :=
  passThroughGet drv st ("Get" ++ strOfOptStr st.channel_type ++ "RngHigh") (fun v => .float v)

/-- Embeds Task.get_low (lines 1294-1299). -/
def get_low (drv : Driver) (st : TaskState) (_channel_name : String) :
    MethodResult :=
  passThroughGet drv st ("Get" ++ strOfOptStr st.channel_type ++ "RngLow") (fun v => .float v)

end Task

/-!
make_pattern (libnidaqmx.py lines 218-268): groups a flat list of path
names by shared leading component, collapses runs of numeric suffixes
into first:last ranges, and joins alternatives with commas.

Modelling choices.  The Python dict of sets is represented canonically:
an association list whose keys are kept in strictly increasing string
order (the rendering loop iterates sorted(patterns.keys()), so only the
map it represents is observable) and whose value sets are strictly
increasing string lists (CPython set iteration order is unspecified;
the sorted order is one admissible enumeration).  The unbounded Python
recursion is embedded with a structural fuel argument; make_pattern
supplies fuel maxLen+1, which a lemma below shows is never exhausted,
fuel exhaustion being reported as a (unreachable) recursionError.
-/

/-- Splits a string at the first slash, as path.split with maxsplit 1:
none when there is no slash, otherwise the parts before and after it. -/
def breakSlash : List Char → Option (List Char × List Char)
  | [] => Option.none
  | c :: cs =>
      if c = '/' then some ([], cs)
      else match breakSlash cs with
           | Option.none => Option.none
           | some (a, b) => some (c :: a, b)

/-- String-level wrapper of breakSlash. -/
def splitOnceSlash (s : String) : Option (String × String) :=
  match breakSlash s.data with
  | Option.none => Option.none
  | some (a, b) => some (String.mk a, String.mk b)

/-- Lexicographic strict comparison of character lists by code point,
the order Python uses on byte strings and Lean uses on String. -/
def listCharLtb : List Char → List Char → Bool
  | [], [] => false
  | [], _ :: _ => true
  | _ :: _, [] => false
  | a :: as, b :: bs =>
      if a.toNat < b.toNat then true
      else if b.toNat < a.toNat then false
      else listCharLtb as bs

/-- Lexicographic strict comparison of strings by code point. -/
def strLtb (a b : String) : Bool := listCharLtb a.data b.data

/-- Inserts a string into a strictly increasing list (set insertion). -/
def insSortedStr (x : String) : List String → List String
  | [] => [x]
  | y :: ys =>
      if strLtb x y then x :: y :: ys
      else if x = y then y :: ys
      else y :: insSortedStr x ys

/-- The patterns dict: keys strictly increasing, values string sets. -/
abbrev Patterns := List (String × List String)

/-- Adds value v to the set of key k, creating the entry when absent,
keeping the keys strictly increasing. -/
def pinsert (k v : String) : Patterns → Patterns
  | [] => [(k, [v])]
  | (k2, s) :: rest =>
      if strLtb k k2 then (k, [v]) :: (k2, s) :: rest
      else if k = k2 then (k2, insSortedStr v s) :: rest
      else (k2, s) :: pinsert k v rest

/-- State of the accumulation loop of make_pattern. -/
structure BuildState where
  patterns : Patterns
  flag : Bool
deriving DecidableEq

/-- The initial accumulation state. -/
def bs0 : BuildState := { patterns := [], flag := false }

/-- Splits a slash-free word before its first digit: the Python loop at
lines 231-237 producing word[:i], word[i:]. -/
def bareSplit (w : String) : String × String :=
  (String.mk (w.data.takeWhile (fun c => ¬ c.isDigit)),
   String.mk (w.data.dropWhile (fun c => ¬ c.isDigit)))

/-- One iteration of the accumulation loop (lines 224-241): a path with
a slash files its tail under its head; a slash-free path must not follow
slash-containing ones (the assert at line 228), sets the flag, and files
its digit tail under its alphabetic head. -/
def processPath (st : BuildState) (path : String) : Except PyExc BuildState :=
  match splitOnceSlash path with
  | some (a, b) => .ok { st with patterns := pinsert a b st.patterns }
  | Option.none =>
      if st.patterns ≠ [] ∧ st.flag = false then
        .error (.assertionError "make_pattern: flag")
      else
        let ps := bareSplit path
        .ok { patterns := pinsert ps.1 ps.2 st.patterns, flag := true }

/-- The accumulation loop, processing paths left to right and stopping
at the first assertion failure. -/
def buildLoop : BuildState → List String → Except PyExc BuildState
  | st, [] => .ok st
  | st, p :: ps =>
      match processPath st p with
      | .error e => .error e
      | .ok st2 => buildLoop st2 ps

/-- The whole accumulation loop. -/
def buildPatterns (paths : List String) : Except PyExc BuildState :=
  buildLoop bs0 paths

/-- Python int() restricted to the decimal literals that occur here:
an optional minus sign followed by one or more digits; anything else
raises ValueError. -/
def pyint (s : String) : Except PyExc Int :=
  match s.data with
  | '-' :: c :: cs =>
      if (c :: cs).all Char.isDigit then
        .ok (-(Int.ofNat ((c :: cs).foldl (fun n d => 10 * n + (d.toNat - 48)) 0)))
      else .error (.valueError ("invalid literal for int: " ++ pyrepr s))
  | c :: cs =>
      if (c :: cs).all Char.isDigit then
        .ok (Int.ofNat ((c :: cs).foldl (fun n d => 10 * n + (d.toNat - 48)) 0))
      else .error (.valueError ("invalid literal for int: " ++ pyrepr s))
  | [] => .error (.valueError ("invalid literal for int: " ++ pyrepr s))

/-- Inserts into a weakly increasing integer list, keeping duplicates
(Python sorted keeps equal elements). -/
def insSortInt (x : Int) : List Int → List Int
  | [] => [x]
  | y :: ys => if x ≤ y then x :: y :: ys else y :: insSortInt x ys

/-- Sorting of an integer list by insertion. -/
def sortInts (l : List Int) : List Int := l.foldr insSortInt []

/-- The integer interval a..b as a list (Python range with a stop of
b+1). -/
def rangeAsc (a b : Int) : List Int :=
  (List.range (b + 1 - a).toNat).map (fun i => a + Int.ofNat i)

/-- Python str.join with a comma. -/
def commaJoin : List String → String
  | [] => ""
  | [x] => x
  | x :: xs => x ++ "," ++ commaJoin xs

/-- Whether a rendered subpattern needs braces (a comma occurs in it). -/
def containsComma (s : String) : Bool := s.data.contains ','

/-- Effectful map over a list in the Except monad, stopping at the
first raised exception (the order Python evaluates map(int, lst)). -/
def mapME {a b : Type} (f : a → Except PyExc b) : List a → Except PyExc (List b)
  | [] => .ok []
  | x :: xs =>
      match f x with
      | .error e => .error e
      | .ok y =>
          match mapME f xs with
          | .error e => .error e
          | .ok ys => .ok (y :: ys)

/-- Renders one entry of the sorted patterns dict (the body of the loop
at lines 243-267); recur is the recursive make_pattern call applied to
the suffix set of a named group. -/
def renderEntry (recur : List String → Except PyExc String) (flag : Bool)
    (pre : String) (lst : List String) : Except PyExc String :=
  match lst with
  | [] => .ok pre
  | [x] => .ok (if flag then pre ++ x else pre ++ "/" ++ x)
  | _ =>
      if pre ≠ "" then
        match recur lst with
        | .error e => .error e
        | .ok sub =>
            let sub2 := if containsComma sub then "\x7b" ++ sub ++ "\x7d" else sub
            .ok (if flag then pre ++ sub2 else pre ++ "/" ++ sub2)
      else
        match mapME pyint lst with
        | .error e => .error e
        | .ok ints =>
            match sortInts ints with
            | [] => .error .indexError
            | a :: rest =>
                let b := (a :: rest).getLast (List.cons_ne_nil a rest)
                if a :: rest = rangeAsc a b then
                  .ok (if rest = [] then toString a else toString a ++ ":" ++ toString b)
                else .error (.assertionError "make_pattern: contiguous")

/-- The fuel-indexed embedding of make_pattern; the fuel only bounds the
recursion depth and is never exhausted at the depth make_pattern uses. -/
def make_pattern_go : Nat → List String → Except PyExc String
  | 0, _ => .error .recursionError
  | Nat.succ fuel, paths =>
      match buildPatterns paths with
      | .error e => .error e
      | .ok bs =>
          match mapME
              (fun kv => renderEntry (make_pattern_go fuel) bs.flag kv.1 kv.2)
              bs.patterns with
          | .error e => .error e
          | .ok parts => .ok (commaJoin parts)

/-- The longest path length in the list. -/
def maxLen (paths : List String) : Nat :=
  paths.foldr (fun p m => max p.length m) 0

/-- Embeds make_pattern (lines 218-268): the result string, or the
exception the Python function raises. -/
def make_pattern (paths : List String) : Except PyExc String :=
  make_pattern_go (maxLen paths + 1) paths

/-!
Claim theorems.
-/

/-- Whether an embedded Python computation raised an exception. -/
def pyIsError {α : Type} : Except PyExc α → Bool
  | .error _ => true
  | .ok _ => false

/-- Helper: the full return-code discipline of CHK, shared by several
claim proofs. -/
lemma chk_spec (drv : Driver) (rc : Int) (fn : String) :
    (pyIsError (CHK drv rc fn).result = true ↔ rc < 0) ∧
    (0 < rc → (CHK drv rc fn).result = .ok rc ∧ (CHK drv rc fn).stderr ≠ []) ∧
    (rc = 0 → CHK drv rc fn = ⟨.ok 0, [], []⟩) := by
  unfold CHK
  rcases Option.eq_none_or_eq_some (drv.errorMap rc) with hm | ⟨v, hm⟩ <;>
    simp only [hm] <;> split_ifs <;>
    simp_all [pyIsError] <;> omega

/-- Helper: a driver call with a non-negative return code returns that
code. -/
lemma call_result_of_nonneg (drv : Driver) (name : String)
    (h : 0 ≤ drv.ret ("DAQmx" ++ name)) :
    (CALL drv name).result = .ok (drv.ret ("DAQmx" ++ name)) := by
  have h1 := (chk_spec drv (drv.ret ("DAQmx" ++ name)) ("DAQmx" ++ name)).2.1
  rcases lt_or_eq_of_le h with hpos | hzero
  · have := (h1 hpos).1
    simpa [CALL] using this
  · have hz : drv.ret ("DAQmx" ++ name) = 0 := hzero.symm
    have := (chk_spec drv (drv.ret ("DAQmx" ++ name)) ("DAQmx" ++ name)).2.2 hz
    rw [hz] at this ⊢
    simp [CALL, this, hz]

/-- Helper: a Task method built from liftCall over a successful driver
call returns the mapped return code and keeps the supplied state. -/
lemma liftCall_of_nonneg (drv : Driver) (st : TaskState) (name : String)
    (f : Int → PyVal) (h : 0 ≤ drv.ret ("DAQmx" ++ name)) :
    Task.liftCall st (CALL drv name) f =
      { result := .ok (f (drv.ret ("DAQmx" ++ name))),
        stderr := (CALL drv name).stderr, calls := (CALL drv name).calls,
        state := st } := by
  simp [Task.liftCall, call_result_of_nonneg drv name h, Except.map]

/-- C1: CHK (and therefore every CALL into the driver) raises an
exception if and only if the return code is negative; every positive
return code produces a stderr warning, no exception, and the code is
returned; a zero return code produces no output, no driver call and no
exception. -/
theorem C1_CHK_raises_iff_negative (drv : Driver) (rc : Int) (fn : String) :
    (pyIsError (CHK drv rc fn).result = true ↔ rc < 0) ∧
    (0 < rc → (CHK drv rc fn).result = .ok rc ∧ (CHK drv rc fn).stderr ≠ []) ∧
    (rc = 0 → CHK drv rc fn = ⟨.ok 0, [], []⟩) ∧
    (pyIsError (CALL drv fn).result = true ↔ drv.ret ("DAQmx" ++ fn) < 0) := by
  have h := chk_spec drv rc fn
  refine ⟨h.1, h.2.1, h.2.2, ?_⟩
  have h2 := (chk_spec drv (drv.ret ("DAQmx" ++ fn)) ("DAQmx" ++ fn)).1
  simpa [CALL] using h2

/-- Witness for C1 at concrete inputs: a positive code warns and is
returned, a zero code is silent, a negative code raises. -/
theorem C1_CHK_raises_iff_negative_witness :
    (0 < (1 : Int) ∧ (CHK (drvConst 1) 1 "DAQmxF").result = .ok 1 ∧
      (CHK (drvConst 1) 1 "DAQmxF").stderr ≠ []) ∧
    ((1 : Int) = 0 ∨ pyIsError (CHK (drvConst (-3)) (-3) "DAQmxF").result = true) := by
  refine ⟨⟨by norm_num, (C1_CHK_raises_iff_negative (drvConst 1) 1 "DAQmxF").2.1 (by norm_num)⟩, ?_⟩
  exact Or.inr ((C1_CHK_raises_iff_negative (drvConst (-3)) (-3) "DAQmxF").1.mpr (by norm_num))

/-- C4: a driver call with a non-negative return code returns exactly
that code to the caller. -/
theorem C4_CALL_forwards_nonnegative_code (drv : Driver) (name : String)
    (h : 0 ≤ drv.ret ("DAQmx" ++ name)) :
    (CALL drv name).result = .ok (drv.ret ("DAQmx" ++ name)) :=
  call_result_of_nonneg drv name h

/-- Witness for C4: the constant-5 driver forwards 5 through CALL. -/
theorem C4_CALL_forwards_nonnegative_code_witness :
    0 ≤ (drvConst 5).ret ("DAQmx" ++ "StartTask") ∧
    (CALL (drvConst 5) "StartTask").result = .ok ((drvConst 5).ret ("DAQmx" ++ "StartTask")) :=
  ⟨by decide, C4_CALL_forwards_nonnegative_code (drvConst 5) "StartTask" (by decide)⟩

/-- C3: make_pattern compresses path lists into prefix-grouped range
notation; all seven reference assertions of _test_make_pattern (lines
271-286) hold. -/
theorem C3_make_pattern_reference_assertions :
    make_pattern ["Dev1/ao1", "Dev1/ao2", "Dev1/ao3", "Dev1/ao4", "Dev1/ao5",
      "Dev1/ao6", "Dev1/ao7"] = .ok "Dev1/ao1:7" ∧
    make_pattern ["Dev1/ao1", "Dev1/ao2", "Dev1/ao3", "Dev1/ao4", "Dev1/ao5",
      "Dev1/ao6", "Dev1/ao7", "Dev0/ao1"] = .ok "Dev0/ao1,Dev1/ao1:7" ∧
    make_pattern ["Dev1/ao1", "Dev1/ao2", "Dev1/ao3", "Dev1/ao4", "Dev1/ao5",
      "Dev1/ao6", "Dev1/ao7", "Dev0/ao1", "Dev0/ao0"] =
      .ok "Dev0/ao0:1,Dev1/ao1:7" ∧
    make_pattern ["Dev1/ao1", "Dev1/ao2", "Dev1/ao3", "Dev1/ao4", "Dev1/ao5",
      "Dev1/ao6", "Dev1/ao7", "Dev0/ao1", "Dev0/ao0", "Dev1/ai1", "Dev1/ai2",
      "Dev1/ai3"] = .ok "Dev0/ao0:1,Dev1/\x7bai1:3,ao1:7\x7d" ∧
    make_pattern ["Dev1/ao1", "Dev1/ao2", "Dev1/ao3", "Dev1/ao4", "Dev1/ao5",
      "Dev1/ao6", "Dev1/ao7", "Dev0/ao1", "Dev0/ao0", "Dev1/ai1", "Dev1/ai2",
      "Dev1/ai3", "Dev2/port0/line0"] =
      .ok "Dev0/ao0:1,Dev1/\x7bai1:3,ao1:7\x7d,Dev2/port0/line0" ∧
    make_pattern ["Dev1/ao1", "Dev1/ao2", "Dev1/ao3", "Dev1/ao4", "Dev1/ao5",
      "Dev1/ao6", "Dev1/ao7", "Dev0/ao1", "Dev0/ao0", "Dev1/ai1", "Dev1/ai2",
      "Dev1/ai3", "Dev2/port0/line0", "Dev2/port0/line1"] =
      .ok "Dev0/ao0:1,Dev1/\x7bai1:3,ao1:7\x7d,Dev2/port0/line0:1" ∧
    make_pattern ["Dev1/ao1", "Dev1/ao2", "Dev1/ao3", "Dev1/ao4", "Dev1/ao5",
      "Dev1/ao6", "Dev1/ao7", "Dev0/ao1", "Dev0/ao0", "Dev1/ai1", "Dev1/ai2",
      "Dev1/ai3", "Dev2/port0/line0", "Dev2/port0/line1", "Dev2/port1/line0",
      "Dev2/port1/line1"] =
      .ok "Dev0/ao0:1,Dev1/\x7bai1:3,ao1:7\x7d,Dev2/\x7bport0/line0:1,port1/line0:1\x7d" := by
  refine ⟨?_, ?_, ?_, ?_, ?_, ?_, ?_⟩ <;> decide

/-- C2 counterexample: with a driver whose every return code is 0,
configure_trigger_disable_start returns the integer 0 (the raw return
code), not the boolean True, so the listed trigger methods are not
translated into a success flag. -/
theorem C2_counterexample_disable_start_returns_raw_code :
    (Task.configure_trigger_disable_start drvOk st0).result = .ok (.int 0) ∧
    (Task.configure_trigger_disable_start drvOk st0).result ≠ .ok (.bool true) := by
  decide

/-- C2 amended: when the driver return code is non-negative (negative
codes raise instead, per C1), start, stop, alter_state, the four
implemented configure_timing methods and the two analog trigger
configuration methods return True exactly when the code is 0, while
configure_trigger_digital_edge_start,
configure_trigger_digital_pattern_start and
configure_trigger_disable_start return the raw return code itself. -/
theorem C2_amended_forwarding_methods_signal (hc : HeaderConsts) (drv : Driver)
    (st : TaskState) :
    (0 ≤ drv.ret ("DAQmx" ++ "StartTask") →
      (Task.start drv st).result =
        .ok (.bool (drv.ret ("DAQmx" ++ "StartTask") = 0))) ∧
    (0 ≤ drv.ret ("DAQmx" ++ "StopTask") →
      (Task.stop drv st).result =
        .ok (.bool (drv.ret ("DAQmx" ++ "StopTask") = 0))) ∧
    (∀ s v, Task.get_map_value "state" (Task.state_map hc) s = .ok v →
      0 ≤ drv.ret ("DAQmx" ++ "TaskControl") →
      (Task.alter_state hc drv st s).result =
        .ok (.bool (drv.ret ("DAQmx" ++ "TaskControl") = 0))) ∧
    (∀ re fe m n v,
      Task.get_map_value "sample_mode" (Task.sample_mode_map hc) m = .ok v →
      0 ≤ drv.ret ("DAQmx" ++ "CfgChangeDetectionTiming") →
      (Task.configure_timing_change_detection hc drv st re fe m n).result =
        .ok (.bool (drv.ret ("DAQmx" ++ "CfgChangeDetectionTiming") = 0))) ∧
    (∀ m n v,
      Task.get_map_value "sample_mode" (Task.sample_mode_map hc) m = .ok v →
      0 ≤ drv.ret ("DAQmx" ++ "CfgHandshakingTiming") →
      (Task.configure_timing_handshaking hc drv st m n).result =
        .ok (.bool (drv.ret ("DAQmx" ++ "CfgHandshakingTiming") = 0))) ∧
    (∀ m n v,
      Task.get_map_value "sample_mode" (Task.sample_mode_map hc) m = .ok v →
      0 ≤ drv.ret ("DAQmx" ++ "CfgImplicitTiming") →
      (Task.configure_timing_implicit hc drv st m n).result =
        .ok (.bool (drv.ret ("DAQmx" ++ "CfgImplicitTiming") = 0))) ∧
    (∀ src rate ae m n va vm,
      Task.get_map_value "active_edge" (Task.active_edge_map hc) ae = .ok va →
      Task.get_map_value "sample_mode" (Task.sample_mode_map hc) m = .ok vm →
      0 ≤ drv.ret ("DAQmx" ++ "CfgSampClkTiming") →
      (Task.configure_timing_sample_clock hc drv st src rate ae m n).result =
        .ok (.bool (drv.ret ("DAQmx" ++ "CfgSampClkTiming") = 0))) ∧
    (∀ src sl lvl v,
      Task.get_map_value "slope" (Task.slope_map hc) sl = .ok v →
      0 ≤ drv.ret ("DAQmx" ++ "CfgAnlgEdgeStartTrig") →
      (Task.configure_trigger_analog_edge_start hc drv st src sl lvl).result =
        .ok (.bool (drv.ret ("DAQmx" ++ "CfgAnlgEdgeStartTrig") = 0))) ∧
    (∀ src w t b v,
      Task.get_map_value "when" (Task.window_when_map hc) w = .ok v →
      0 ≤ drv.ret ("DAQmx" ++ "CfgAnlgWindowStartTrig") →
      (Task.configure_trigger_analog_window_start hc drv st src w t b).result =
        .ok (.bool (drv.ret ("DAQmx" ++ "CfgAnlgWindowStartTrig") = 0))) ∧
    (∀ src e v,
      Task.get_map_value "edge" (Task.edge_map hc) e = .ok v →
      0 ≤ drv.ret ("DAQmx" ++ "CfgDigEdgeStartTrig") →
      (Task.configure_trigger_digital_edge_start hc drv st src e).result =
        .ok (.int (drv.ret ("DAQmx" ++ "CfgDigEdgeStartTrig")))) ∧
    (∀ src p w v,
      Task.get_map_value "when" (Task.pattern_when_map hc) w = .ok v →
      0 ≤ drv.ret ("DAQmx" ++ "CfgDigPatternStartTrig") →
      (Task.configure_trigger_digital_pattern_start hc drv st src p w).result =
        .ok (.int (drv.ret ("DAQmx" ++ "CfgDigPatternStartTrig")))) ∧
    (0 ≤ drv.ret ("DAQmx" ++ "DisableStartTrig") →
      (Task.configure_trigger_disable_start drv st).result =
        .ok (.int (drv.ret ("DAQmx" ++ "DisableStartTrig")))) := by
  refine ⟨?_, ?_, ?_, ?_, ?_, ?_, ?_, ?_, ?_, ?_, ?_, ?_⟩
  · intro h
    simp [Task.start, liftCall_of_nonneg drv st "StartTask" _ h]
  · intro h
    simp [Task.stop, liftCall_of_nonneg drv st "StopTask" _ h]
  · intro s v hv h
    simp [Task.alter_state, hv, liftCall_of_nonneg drv st "TaskControl" _ h]
  · intro re fe m n v hv h
    simp [Task.configure_timing_change_detection, hv,
      liftCall_of_nonneg drv _ "CfgChangeDetectionTiming" _ h]
  · intro m n v hv h
    simp [Task.configure_timing_handshaking, hv,
      liftCall_of_nonneg drv _ "CfgHandshakingTiming" _ h]
  · intro m n v hv h
    simp [Task.configure_timing_implicit, hv,
      liftCall_of_nonneg drv _ "CfgImplicitTiming" _ h]
  · intro src rate ae m n va vm hva hvm h
    simp [Task.configure_timing_sample_clock, hva, hvm,
      liftCall_of_nonneg drv _ "CfgSampClkTiming" _ h]
  · intro src sl lvl v hv h
    simp [Task.configure_trigger_analog_edge_start, hv,
      liftCall_of_nonneg drv st "CfgAnlgEdgeStartTrig" _ h]
  · intro src w t b v hv h
    simp [Task.configure_trigger_analog_window_start, hv,
      liftCall_of_nonneg drv st "CfgAnlgWindowStartTrig" _ h]
  · intro src e v hv h
    simp [Task.configure_trigger_digital_edge_start, hv,
      liftCall_of_nonneg drv st "CfgDigEdgeStartTrig" _ h]
  · intro src p w v hv h
    simp [Task.configure_trigger_digital_pattern_start, hv,
      liftCall_of_nonneg drv st "CfgDigPatternStartTrig" _ h]
  · intro h
    simp [Task.configure_trigger_disable_start,
      liftCall_of_nonneg drv st "DisableStartTrig" _ h]

/-- Witness for C2 amended: with the all-zero driver, alter_state on
commit returns the success flag and configure_trigger_disable_start
returns the raw code 0. -/
theorem C2_amended_forwarding_methods_signal_witness :
    (Task.get_map_value "state" (Task.state_map hc0) "commit" = .ok 0 ∧
     0 ≤ drvOk.ret ("DAQmx" ++ "TaskControl") ∧
     (Task.alter_state hc0 drvOk st0 "commit").result =
       .ok (.bool (drvOk.ret ("DAQmx" ++ "TaskControl") = 0))) ∧
    (0 ≤ drvOk.ret ("DAQmx" ++ "DisableStartTrig") ∧
     (Task.configure_trigger_disable_start drvOk st0).result =
       .ok (.int (drvOk.ret ("DAQmx" ++ "DisableStartTrig")))) := by
  refine ⟨⟨by decide, by decide, ?_⟩, by decide, ?_⟩
  · exact (C2_amended_forwarding_methods_signal hc0 drvOk st0).2.2.1 "commit" 0
      (by decide) (by decide)
  · exact (C2_amended_forwarding_methods_signal hc0 drvOk st0).2.2.2.2.2.2.2.2.2.2.2
      (by decide)

/-- Helper: looking a key up in an association list none of whose keys
equal it yields none. -/
lemma lookup_none_of_not_mem (m : List (String × Int)) (s : String)
    (h : s ∉ m.map Prod.fst) : m.lookup s = Option.none := by
  induction m with
  | nil => rfl
  | cons kv rest ih =>
      simp only [List.map_cons, List.mem_cons] at h
      push_neg at h
      have hb : (s == kv.1) = false := beq_false_of_ne h.1
      simp [List.lookup, hb, ih h.2]

/-- C5: every string-to-enum parameter resolved through _get_map_value
raises ValueError naming the accepted values when the string is outside
the accepted set, with no driver function invoked and the task
attributes unchanged. -/
theorem C5_invalid_enum_string_raises_before_call (hc : HeaderConsts)
    (drv : Driver) (st : TaskState) :
    (∀ s, s ∉ ["start", "stop", "verify", "commit", "reserve", "unreserve", "abort"] →
      Task.alter_state hc drv st s =
        { result := .error (.valueError (Task.expectedMsg "state"
            ["start", "stop", "verify", "commit", "reserve", "unreserve", "abort"] s)),
          stderr := [], calls := [], state := st }) ∧
    (∀ re fe m n, m ∉ ["finite", "continuous", "hwtimed"] →
      Task.configure_timing_change_detection hc drv st re fe m n =
        { result := .error (.valueError (Task.expectedMsg "sample_mode"
            ["finite", "continuous", "hwtimed"] m)),
          stderr := [], calls := [], state := st }) ∧
    (∀ m n, m ∉ ["finite", "continuous", "hwtimed"] →
      Task.configure_timing_handshaking hc drv st m n =
        { result := .error (.valueError (Task.expectedMsg "sample_mode"
            ["finite", "continuous", "hwtimed"] m)),
          stderr := [], calls := [], state := st }) ∧
    (∀ m n, m ∉ ["finite", "continuous", "hwtimed"] →
      Task.configure_timing_implicit hc drv st m n =
        { result := .error (.valueError (Task.expectedMsg "sample_mode"
            ["finite", "continuous", "hwtimed"] m)),
          stderr := [], calls := [], state := st }) ∧
    (∀ src rate ae m n, ae ∉ ["rising", "falling"] →
      Task.configure_timing_sample_clock hc drv st src rate ae m n =
        { result := .error (.valueError (Task.expectedMsg "active_edge"
            ["rising", "falling"] ae)),
          stderr := [], calls := [], state := st }) ∧
    (∀ src rate ae va m n,
      Task.get_map_value "active_edge" (Task.active_edge_map hc) ae = .ok va →
      m ∉ ["finite", "continuous", "hwtimed"] →
      Task.configure_timing_sample_clock hc drv st src rate ae m n =
        { result := .error (.valueError (Task.expectedMsg "sample_mode"
            ["finite", "continuous", "hwtimed"] m)),
          stderr := [], calls := [], state := st }) ∧
    (∀ src sl lvl, sl ∉ ["rising", "falling"] →
      Task.configure_trigger_analog_edge_start hc drv st src sl lvl =
        { result := .error (.valueError (Task.expectedMsg "slope"
            ["rising", "falling"] sl)),
          stderr := [], calls := [], state := st }) ∧
    (∀ src w t b, w ∉ ["entering", "leaving"] →
      Task.configure_trigger_analog_window_start hc drv st src w t b =
        { result := .error (.valueError (Task.expectedMsg "when"
            ["entering", "leaving"] w)),
          stderr := [], calls := [], state := st }) ∧
    (∀ src e, e ∉ ["rising", "falling"] →
      Task.configure_trigger_digital_edge_start hc drv st src e =
        { result := .error (.valueError (Task.expectedMsg "edge"
            ["rising", "falling"] e)),
          stderr := [], calls := [], state := st }) ∧
    (∀ src p w, w ∉ ["matches", "does_not_match"] →
      Task.configure_trigger_digital_pattern_start hc drv st src p w =
        { result := .error (.valueError (Task.expectedMsg "when"
            ["matches", "does_not_match"] w)),
          stderr := [], calls := [], state := st }) := by
  refine ⟨?_, ?_, ?_, ?_, ?_, ?_, ?_, ?_, ?_, ?_⟩
  · intro s hs
    have hl : (Task.state_map hc).lookup s = Option.none :=
      lookup_none_of_not_mem _ _ (by simpa [Task.state_map] using hs)
    simp only [Task.state_map] at hl
    simp [Task.alter_state, Task.get_map_value, hl, Task.raiseBefore, Task.state_map]
  · intro re fe m n hm
    have hl : (Task.sample_mode_map hc).lookup m = Option.none :=
      lookup_none_of_not_mem _ _ (by simpa [Task.sample_mode_map] using hm)
    simp only [Task.sample_mode_map] at hl
    simp [Task.configure_timing_change_detection, Task.get_map_value, hl,
      Task.raiseBefore, Task.sample_mode_map]
  · intro m n hm
    have hl : (Task.sample_mode_map hc).lookup m = Option.none :=
      lookup_none_of_not_mem _ _ (by simpa [Task.sample_mode_map] using hm)
    simp only [Task.sample_mode_map] at hl
    simp [Task.configure_timing_handshaking, Task.get_map_value, hl,
      Task.raiseBefore, Task.sample_mode_map]
  · intro m n hm
    have hl : (Task.sample_mode_map hc).lookup m = Option.none :=
      lookup_none_of_not_mem _ _ (by simpa [Task.sample_mode_map] using hm)
    simp only [Task.sample_mode_map] at hl
    simp [Task.configure_timing_implicit, Task.get_map_value, hl,
      Task.raiseBefore, Task.sample_mode_map]
  · intro src rate ae m n hae
    have hl : (Task.active_edge_map hc).lookup ae = Option.none :=
      lookup_none_of_not_mem _ _ (by simpa [Task.active_edge_map] using hae)
    simp only [Task.active_edge_map] at hl
    simp [Task.configure_timing_sample_clock, Task.get_map_value, hl,
      Task.raiseBefore, Task.active_edge_map]
  · intro src rate ae va m n hva hm
    have hl : (Task.sample_mode_map hc).lookup m = Option.none :=
      lookup_none_of_not_mem _ _ (by simpa [Task.sample_mode_map] using hm)
    simp only [Task.sample_mode_map] at hl
    simp only [Task.configure_timing_sample_clock]
    rw [hva]
    simp [Task.get_map_value, hl, Task.raiseBefore, Task.sample_mode_map]
  · intro src sl lvl hsl
    have hl : (Task.slope_map hc).lookup sl = Option.none :=
      lookup_none_of_not_mem _ _ (by simpa [Task.slope_map] using hsl)
    simp only [Task.slope_map] at hl
    simp [Task.configure_trigger_analog_edge_start, Task.get_map_value, hl,
      Task.raiseBefore, Task.slope_map]
  · intro src w t b hw
    have hl : (Task.window_when_map hc).lookup w = Option.none :=
      lookup_none_of_not_mem _ _ (by simpa [Task.window_when_map] using hw)
    simp only [Task.window_when_map] at hl
    simp [Task.configure_trigger_analog_window_start, Task.get_map_value, hl,
      Task.raiseBefore, Task.window_when_map]
  · intro src e he
    have hl : (Task.edge_map hc).lookup e = Option.none :=
      lookup_none_of_not_mem _ _ (by simpa [Task.edge_map] using he)
    simp only [Task.edge_map] at hl
    simp [Task.configure_trigger_digital_edge_start, Task.get_map_value, hl,
      Task.raiseBefore, Task.edge_map]
  · intro src p w hw
    have hl : (Task.pattern_when_map hc).lookup w = Option.none :=
      lookup_none_of_not_mem _ _ (by simpa [Task.pattern_when_map] using hw)
    simp only [Task.pattern_when_map] at hl
    simp [Task.configure_trigger_digital_pattern_start, Task.get_map_value, hl,
      Task.raiseBefore, Task.pattern_when_map]

/-- Witness for C5: the string bogus is rejected by alter_state with no
driver call and an unchanged attribute record. -/
theorem C5_invalid_enum_string_raises_before_call_witness :
    ("bogus" ∉ ["start", "stop", "verify", "commit", "reserve", "unreserve", "abort"]) ∧
    Task.alter_state hc0 drvOk st0 "bogus" =
      { result := .error (.valueError (Task.expectedMsg "state"
          ["start", "stop", "verify", "commit", "reserve", "unreserve", "abort"] "bogus")),
        stderr := [], calls := [], state := st0 } :=
  ⟨by decide,
   (C5_invalid_enum_string_raises_before_call hc0 drvOk st0).1 "bogus" (by decide)⟩

/-- C7: after any configure_timing call with a valid sample mode, the
sample_mode and samples_per_channel attributes hold exactly the
requested values, whatever the driver then returns. -/
theorem C7_configure_timing_records_request (hc : HeaderConsts) (drv : Driver)
    (st : TaskState) :
    (∀ re fe m n v,
      Task.get_map_value "sample_mode" (Task.sample_mode_map hc) m = .ok v →
      (Task.configure_timing_change_detection hc drv st re fe m n).state.sample_mode = some m ∧
      (Task.configure_timing_change_detection hc drv st re fe m n).state.samples_per_channel = some n) ∧
    (∀ m n v,
      Task.get_map_value "sample_mode" (Task.sample_mode_map hc) m = .ok v →
      (Task.configure_timing_handshaking hc drv st m n).state.sample_mode = some m ∧
      (Task.configure_timing_handshaking hc drv st m n).state.samples_per_channel = some n) ∧
    (∀ m n v,
      Task.get_map_value "sample_mode" (Task.sample_mode_map hc) m = .ok v →
      (Task.configure_timing_implicit hc drv st m n).state.sample_mode = some m ∧
      (Task.configure_timing_implicit hc drv st m n).state.samples_per_channel = some n) ∧
    (∀ src rate ae m n va vm,
      Task.get_map_value "active_edge" (Task.active_edge_map hc) ae = .ok va →
      Task.get_map_value "sample_mode" (Task.sample_mode_map hc) m = .ok vm →
      (Task.configure_timing_sample_clock hc drv st src rate ae m n).state.sample_mode = some m ∧
      (Task.configure_timing_sample_clock hc drv st src rate ae m n).state.samples_per_channel = some n) := by
  refine ⟨?_, ?_, ?_, ?_⟩
  · intro re fe m n v hv
    simp [Task.configure_timing_change_detection, hv, Task.liftCall]
  · intro m n v hv
    simp [Task.configure_timing_handshaking, hv, Task.liftCall]
  · intro m n v hv
    simp [Task.configure_timing_implicit, hv, Task.liftCall]
  · intro src rate ae m n va vm hva hvm
    simp only [Task.configure_timing_sample_clock]
    rw [hva, hvm]
    simp [Task.liftCall]

/-- Witness for C7: requesting finite mode with 5 samples records
exactly those two values. -/
theorem C7_configure_timing_records_request_witness :
    Task.get_map_value "sample_mode" (Task.sample_mode_map hc0) "finite" = .ok 0 ∧
    (Task.configure_timing_implicit hc0 drvOk st0 "finite" 5).state.sample_mode = some "finite" ∧
    (Task.configure_timing_implicit hc0 drvOk st0 "finite" 5).state.samples_per_channel = some 5 :=
  ⟨by decide,
   (C7_configure_timing_records_request hc0 drvOk st0).2.2.1 "finite" 5 0 (by decide)⟩

/-- A task state whose channel type has been set to AI, for witnesses. -/
def stAI : TaskState := { st0 with channel_type := some "AI" }

/-- C8: the introspection getters return the value the driver wrote into
the byref output argument and leave every Python-side attribute
unchanged (the attribute record is returned untouched even when the
driver call raises). -/
theorem C8_getters_are_pass_through (drv : Driver) (st : TaskState) :
    ((0 ≤ drv.ret ("DAQmx" ++ "GetTaskNumChans") →
      (Task.get_number_of_channels drv st).result =
        .ok (.int (drv.wrote ("DAQmx" ++ "GetTaskNumChans")))) ∧
     (Task.get_number_of_channels drv st).state = st) ∧
    (∀ io, Task.channel_io_type st = .ok io →
      ((0 ≤ drv.ret ("DAQmx" ++ ("GetBuf" ++ Task.strTitle io ++ "BufSize")) →
        (Task.get_buffer_size drv st false).result =
          .ok (.int (drv.wrote ("DAQmx" ++ ("GetBuf" ++ Task.strTitle io ++ "BufSize"))))) ∧
       (0 ≤ drv.ret ("DAQmx" ++ ("GetBuf" ++ Task.strTitle io ++ "OnbrdBufSize")) →
        (Task.get_buffer_size drv st true).result =
          .ok (.int (drv.wrote ("DAQmx" ++ ("GetBuf" ++ Task.strTitle io ++ "OnbrdBufSize"))))))) ∧
    (∀ onb, (Task.get_buffer_size drv st onb).state = st) ∧
    (∀ ct ch, st.channel_type = some ct →
      ((0 ≤ drv.ret ("DAQmx" ++ ("Get" ++ ct ++ "Max")) →
        (Task.get_max drv st ch).result =
          .ok (.float (drv.wrote ("DAQmx" ++ ("Get" ++ ct ++ "Max"))))) ∧
       (0 ≤ drv.ret ("DAQmx" ++ ("Get" ++ ct ++ "Min")) →
        (Task.get_min drv st ch).result =
          .ok (.float (drv.wrote ("DAQmx" ++ ("Get" ++ ct ++ "Min"))))) ∧
       (0 ≤ drv.ret ("DAQmx" ++ ("Get" ++ ct ++ "RngHigh")) →
        (Task.get_high drv st ch).result =
          .ok (.float (drv.wrote ("DAQmx" ++ ("Get" ++ ct ++ "RngHigh"))))) ∧
       (0 ≤ drv.ret ("DAQmx" ++ ("Get" ++ ct ++ "RngLow")) →
        (Task.get_low drv st ch).result =
          .ok (.float (drv.wrote ("DAQmx" ++ ("Get" ++ ct ++ "RngLow"))))))) ∧
    (∀ ch, (Task.get_max drv st ch).state = st ∧ (Task.get_min drv st ch).state = st ∧
      (Task.get_high drv st ch).state = st ∧ (Task.get_low drv st ch).state = st) := by
  refine ⟨⟨?_, ?_⟩, ?_, ?_, ?_, ?_⟩
  · intro h
    simp [Task.get_number_of_channels, Task.passThroughGet,
      liftCall_of_nonneg drv st "GetTaskNumChans" _ h]
  · simp [Task.get_number_of_channels, Task.passThroughGet, Task.liftCall]
  · intro io hio
    refine ⟨fun h => ?_, fun h => ?_⟩
    · simp [Task.get_buffer_size, hio, Task.passThroughGet,
        liftCall_of_nonneg drv st ("GetBuf" ++ Task.strTitle io ++ "BufSize") _ h]
    · simp [Task.get_buffer_size, hio, Task.passThroughGet,
        liftCall_of_nonneg drv st ("GetBuf" ++ Task.strTitle io ++ "OnbrdBufSize") _ h]
  · intro onb
    rcases h : Task.channel_io_type st with e | io <;>
      simp [Task.get_buffer_size, h, Task.raiseBefore, Task.passThroughGet,
        Task.liftCall] <;> cases onb <;> simp
  · intro ct ch hct
    refine ⟨fun h => ?_, fun h => ?_, fun h => ?_, fun h => ?_⟩
    · simp [Task.get_max, hct, Task.strOfOptStr, Task.passThroughGet,
        liftCall_of_nonneg drv st ("Get" ++ ct ++ "Max") _ h]
    · simp [Task.get_min, hct, Task.strOfOptStr, Task.passThroughGet,
        liftCall_of_nonneg drv st ("Get" ++ ct ++ "Min") _ h]
    · simp [Task.get_high, hct, Task.strOfOptStr, Task.passThroughGet,
        liftCall_of_nonneg drv st ("Get" ++ ct ++ "RngHigh") _ h]
    · simp [Task.get_low, hct, Task.strOfOptStr, Task.passThroughGet,
        liftCall_of_nonneg drv st ("Get" ++ ct ++ "RngLow") _ h]
  · intro ch
    refine ⟨?_, ?_, ?_, ?_⟩ <;>
      simp [Task.get_max, Task.get_min, Task.get_high, Task.get_low,
        Task.passThroughGet, Task.liftCall]

/-- Witness for C8: on an AI task the driver-written value 7 is returned
by get_max and the attributes are untouched. -/
theorem C8_getters_are_pass_through_witness :
    (stAI.channel_type = some "AI") ∧
    (0 ≤ (drvConst 5).ret ("DAQmx" ++ ("Get" ++ "AI" ++ "Max"))) ∧
    (Task.get_max (drvConst 5) stAI "c0").result =
      .ok (.float ((drvConst 5).wrote ("DAQmx" ++ ("Get" ++ "AI" ++ "Max")))) := by
  refine ⟨by decide, by decide, ?_⟩
  exact ((C8_getters_are_pass_through (drvConst 5) stAI).2.2.2.1 "AI" "c0" (by decide)).1
    (by decide)

/-- Whether an embedded computation raised specifically a ValueError. -/
def isValueErrorRes {α : Type} : Except PyExc α → Bool
  | .error (.valueError _) => true
  | _ => false

/-- C10 counterexample: on a task whose channel_type is AI, passing the
(different) string XY to set_channel_type trips the membership assert
and raises AssertionError, not ValueError; the attribute keeps its
value. -/
theorem C10_counterexample_invalid_type_asserts :
    ("XY" : String) ≠ "AI" ∧
    (Task.set_channel_type stAI "XY").result = .error (.assertionError (pyrepr "XY")) ∧
    isValueErrorRes (Task.set_channel_type stAI "XY").result = false ∧
    (Task.set_channel_type stAI "XY").state.channel_type = some "AI" := by
  decide

/-- Helper: the string yielded by channel_io_type is determined by the
second letter of the channel type. -/
def secondIsI (t : String) : Bool :=
  match t.data with
  | _ :: c :: _ => c = 'I'
  | _ => false

/-- C10 amended: channel_type is write-once over the six valid channel
type strings: once it holds t, set_channel_type t is a no-op,
set_channel_type of a different valid type raises ValueError leaving the
attribute (and whole record) unchanged, an invalid string trips the
assert instead, no modelled operation other than set_channel_type writes
the attribute, and channel_io_type is then stably input when the second
letter of t is I and output otherwise. -/
theorem C10_amended_channel_type_write_once (hc : HeaderConsts) (drv : Driver)
    (st : TaskState) (t : String) (ht : st.channel_type = some t) :
    (Task.set_channel_type st t =
      { result := .ok .none, stderr := [], calls := [], state := st } ∨
      t ∉ Task.validChannelTypes) ∧
    (∀ tp, tp ∈ Task.validChannelTypes → tp ≠ t →
      Task.set_channel_type st tp =
        { result := .error (.valueError ("Expected channel type " ++ pyrepr t ++
            " but got " ++ pyrepr tp)), stderr := [], calls := [], state := st }) ∧
    (∀ tp, tp ∉ Task.validChannelTypes →
      Task.set_channel_type st tp =
        { result := .error (.assertionError (pyrepr tp)), stderr := [], calls := [],
          state := st }) ∧
    (t ∈ Task.validChannelTypes →
      Task.channel_io_type st = .ok (if secondIsI t then "input" else "output")) ∧
    ((Task.start drv st).state.channel_type = some t ∧
     (Task.stop drv st).state.channel_type = some t ∧
     (∀ s, (Task.alter_state hc drv st s).state.channel_type = some t) ∧
     (∀ m n, (Task.configure_timing_implicit hc drv st m n).state.channel_type = some t) ∧
     (∀ re fe m n,
       (Task.configure_timing_change_detection hc drv st re fe m n).state.channel_type = some t) ∧
     (∀ m n, (Task.configure_timing_handshaking hc drv st m n).state.channel_type = some t) ∧
     (∀ src rate ae m n,
       (Task.configure_timing_sample_clock hc drv st src rate ae m n).state.channel_type = some t) ∧
     (∀ src e, (Task.configure_trigger_digital_edge_start hc drv st src e).state.channel_type = some t) ∧
     ((Task.configure_trigger_disable_start drv st).state.channel_type = some t) ∧
     (∀ ch, (Task.get_max drv st ch).state.channel_type = some t) ∧
     (∀ onb, (Task.get_buffer_size drv st onb).state.channel_type = some t)) := by
  refine ⟨?_, ?_, ?_, ?_, ?_, ?_, ?_, ?_, ?_, ?_, ?_, ?_, ?_, ?_, ?_⟩
  · by_cases hv : t ∈ Task.validChannelTypes
    · left
      simp [Task.set_channel_type, hv, ht]
    · right
      exact hv
  · intro tp hv hne
    simp [Task.set_channel_type, hv, ht, Ne.symm hne, Task.raiseBefore]
  · intro tp hv
    simp [Task.set_channel_type, hv, Task.raiseBefore]
  · intro hv
    fin_cases hv <;> simp only [Task.channel_io_type, ht] <;> decide
  · simp [Task.start, Task.liftCall, ht]
  · simp [Task.stop, Task.liftCall, ht]
  · intro s
    rcases h : Task.get_map_value "state" (Task.state_map hc) s with e | v <;>
      simp [Task.alter_state, h, Task.liftCall, Task.raiseBefore, ht]
  · intro m n
    rcases h : Task.get_map_value "sample_mode" (Task.sample_mode_map hc) m with e | v <;>
      simp [Task.configure_timing_implicit, h, Task.liftCall, Task.raiseBefore, ht]
  · intro re fe m n
    rcases h : Task.get_map_value "sample_mode" (Task.sample_mode_map hc) m with e | v <;>
      simp [Task.configure_timing_change_detection, h, Task.liftCall, Task.raiseBefore, ht]
  · intro m n
    rcases h : Task.get_map_value "sample_mode" (Task.sample_mode_map hc) m with e | v <;>
      simp [Task.configure_timing_handshaking, h, Task.liftCall, Task.raiseBefore, ht]
  · intro src rate ae m n
    rcases h : Task.get_map_value "active_edge" (Task.active_edge_map hc) ae with e | va
    · simp [Task.configure_timing_sample_clock, h, Task.raiseBefore, ht]
    · rcases h2 : Task.get_map_value "sample_mode" (Task.sample_mode_map hc) m with e | vm <;>
        (simp only [Task.configure_timing_sample_clock]; rw [h, h2]) <;>
        simp [Task.liftCall, Task.raiseBefore, ht]
  · intro src e
    rcases h : Task.get_map_value "edge" (Task.edge_map hc) e with er | v <;>
      simp [Task.configure_trigger_digital_edge_start, h, Task.liftCall, Task.raiseBefore, ht]
  · simp [Task.configure_trigger_disable_start, Task.liftCall, ht]
  · intro ch
    simp [Task.get_max, Task.passThroughGet, Task.liftCall, ht]
  · intro onb
    rcases h : Task.channel_io_type st with e | io <;>
      simp [Task.get_buffer_size, h, Task.raiseBefore, Task.passThroughGet, Task.liftCall, ht] <;>
      cases onb <;> simp [Task.passThroughGet, Task.liftCall, ht]

/-- Witness for C10 amended: with channel_type AI, requesting AO raises
the expected ValueError and leaves the record unchanged. -/
theorem C10_amended_channel_type_write_once_witness :
    (stAI.channel_type = some "AI") ∧
    ("AO" ∈ Task.validChannelTypes) ∧ (("AO" : String) ≠ "AI") ∧
    Task.set_channel_type stAI "AO" =
      { result := .error (.valueError ("Expected channel type " ++ pyrepr "AI" ++
          " but got " ++ pyrepr "AO")), stderr := [], calls := [], state := stAI } :=
  ⟨by decide, by decide, by decide,
   (C10_amended_channel_type_write_once hc0 drvOk stAI "AI" (by decide)).2.1 "AO"
     (by decide) (by decide)⟩

/-!
Claim C6: totality of make_pattern on well-shaped inputs.  The
hypothesis of the claim is formalised as a recursive well-shapedness
predicate mirroring the levels of the recursion: the accumulation loop
must not trip the slash/flag assert, every empty-prefix group must
consist of decimal literals forming a contiguous range, and every named
multi-element group must be well-shaped one level down.
-/

/-- The per-entry well-shapedness condition at one recursion level;
recur judges the suffix set of a named multi-element group. -/
def goodEntry (recur : List String → Bool) (pre : String) (lst : List String) :
    Bool :=
  match lst with
  | [] => true
  | [_] => true
  | _ =>
      if pre ≠ "" then recur lst
      else
        match mapME pyint lst with
        | .error _ => false
        | .ok ints =>
            match sortInts ints with
            | [] => false
            | a :: rest =>
                decide (a :: rest = rangeAsc a ((a :: rest).getLast (List.cons_ne_nil a rest)))

/-- Well-shapedness of an input list down to the given depth: the
accumulation loop succeeds (no slash-free name after a slash-containing
one) and every entry is well-shaped. -/
def goodInput : Nat → List String → Bool
  | 0, _ => false
  | Nat.succ fuel, paths =>
      match buildPatterns paths with
      | .error _ => false
      | .ok bs => bs.patterns.all (fun kv => goodEntry (goodInput fuel) kv.1 kv.2)

/-- Helper: a well-shaped entry renders without raising. -/
lemma renderEntry_ok_of_good (fuel : Nat)
    (IH : ∀ l, goodInput fuel l = true → ∃ s, make_pattern_go fuel l = .ok s)
    (flag : Bool) (pre : String) (lst : List String)
    (h : goodEntry (goodInput fuel) pre lst = true) :
    ∃ s, renderEntry (make_pattern_go fuel) flag pre lst = .ok s := by
  match lst with
  | [] => exact ⟨pre, rfl⟩
  | [x] => exact ⟨if flag then pre ++ x else pre ++ "/" ++ x, rfl⟩
  | x :: y :: rest =>
      simp only [goodEntry] at h
      simp only [renderEntry]
      by_cases hp : pre ≠ ""
      · simp only [if_pos hp] at h ⊢
        obtain ⟨s, hs⟩ := IH (x :: y :: rest) h
        rw [hs]
        exact ⟨_, rfl⟩
      · simp only [if_neg hp] at h ⊢
        cases hm : mapME pyint (x :: y :: rest) with
        | error e => simp [hm] at h
        | ok ints =>
            simp only [hm] at h ⊢
            cases hs : sortInts ints with
            | nil => simp [hs] at h
            | cons a rest2 =>
                simp only [hs, decide_eq_true_eq] at h ⊢
                rw [if_pos h]
                exact ⟨_, rfl⟩

/-- Helper: a list of well-shaped entries renders entrywise without
raising. -/
lemma mapM_render_ok (fuel : Nat)
    (IH : ∀ l, goodInput fuel l = true → ∃ s, make_pattern_go fuel l = .ok s)
    (flag : Bool) :
    ∀ entries : Patterns,
      entries.all (fun kv => goodEntry (goodInput fuel) kv.1 kv.2) = true →
      ∃ parts, mapME
        (fun kv => renderEntry (make_pattern_go fuel) flag kv.1 kv.2) entries = .ok parts := by
  intro entries h
  induction entries with
  | nil => exact ⟨[], rfl⟩
  | cons kv rest ih =>
      rw [List.all_cons, Bool.and_eq_true] at h
      obtain ⟨s, hs⟩ := renderEntry_ok_of_good fuel IH flag kv.1 kv.2 h.1
      obtain ⟨parts, hp⟩ := ih h.2
      refine ⟨s :: parts, ?_⟩
      rw [mapME]
      simp [hs, hp]

/-- Helper: well-shaped inputs make make_pattern_go return a string. -/
lemma make_pattern_go_ok_of_good :
    ∀ (fuel : Nat) (paths : List String), goodInput fuel paths = true →
      ∃ s, make_pattern_go fuel paths = .ok s := by
  intro fuel
  induction fuel with
  | zero => intro paths h; simp [goodInput] at h
  | succ fuel ih =>
      intro paths h
      rw [goodInput] at h
      rw [make_pattern_go]
      cases hb : buildPatterns paths with
      | error e => simp [hb] at h
      | ok bs =>
          simp only [hb] at h ⊢
          obtain ⟨parts, hp⟩ := mapM_render_ok fuel ih bs.flag bs.patterns h
          rw [hp]
          exact ⟨_, rfl⟩

/-- C6 amended: make_pattern is total on inputs that are well-shaped at
every recursion level, where well-shaped additionally requires (beyond
the contiguity of each empty-prefix group stated in the claim) that the
empty-prefix group members are decimal literals and that a slash-free
name only occurs at a level whose first name is slash-free (otherwise
the assert at line 228 fires, as the counterexample shows): every
internal assertion passes and a string is returned. -/
theorem C6_amended_make_pattern_total_on_wellshaped (paths : List String)
    (h : goodInput (maxLen paths + 1) paths = true) :
    ∃ s, make_pattern paths = .ok s :=
  make_pattern_go_ok_of_good (maxLen paths + 1) paths h

/-- Witness for C6 amended at a concrete well-shaped input. -/
theorem C6_amended_make_pattern_total_on_wellshaped_witness :
    goodInput (maxLen ["Dev0/ao0", "Dev0/ao1", "Dev1/ai1"] + 1)
      ["Dev0/ao0", "Dev0/ao1", "Dev1/ai1"] = true ∧
    ∃ s, make_pattern ["Dev0/ao0", "Dev0/ao1", "Dev1/ai1"] = .ok s :=
  ⟨by decide,
   C6_amended_make_pattern_total_on_wellshaped ["Dev0/ao0", "Dev0/ao1", "Dev1/ai1"]
     (by decide)⟩

/-- C6 counterexample: the input with paths a/b and 3 has a single bare
numeric suffix forming the contiguous singleton range 3..3, yet
make_pattern raises the flag assertion at line 228 because the bare name
follows a slash-containing one, so contiguity of the empty-prefix groups
alone does not make make_pattern total. -/
theorem C6_counterexample_flag_assert_despite_contiguity :
    make_pattern ["a/b", "3"] = .error (.assertionError "make_pattern: flag") ∧
    pyint "3" = .ok 3 ∧ rangeAsc 3 3 = [3] := by
  decide

/-!
Claim C9: order-insensitivity of make_pattern.  The rendering only looks
at the canonical patterns map, so the result depends on the input order
only through the slash/flag assert of the accumulation loop.  The
lemmas below establish the commutation facts for the canonical map.
-/

/-- Helper: characters with equal code points are equal. -/
lemma char_toNat_inj {a b : Char} (h : a.toNat = b.toNat) : a = b :=
  Char.eq_of_val_eq (UInt32.ext h)

/-- Helper: unfolding of the code-point order on nonempty char lists. -/
lemma listCharLtb_cons_iff {a b : Char} {as bs : List Char} :
    listCharLtb (a :: as) (b :: bs) = true ↔
      a.toNat < b.toNat ∨ (a = b ∧ listCharLtb as bs = true) := by
  simp only [listCharLtb]
  split_ifs with h1 h2
  · simp [h1]
  · simp only [Bool.false_eq_true, false_iff]
    rintro (h | ⟨rfl, _⟩) <;> omega
  · have hab : a = b := char_toNat_inj (by omega)
    subst hab
    simp [h1]

/-- Helper: the code-point order on char lists is irreflexive. -/
lemma listCharLtb_irrefl (x : List Char) : listCharLtb x x = false := by
  induction x with
  | nil => rfl
  | cons a as ih => simp [listCharLtb, ih]

/-- Helper: the code-point order on char lists is asymmetric. -/
lemma listCharLtb_asymm : ∀ {x y : List Char},
    listCharLtb x y = true → listCharLtb y x = false := by
  intro x
  induction x with
  | nil => intro y h; cases y <;> simp_all [listCharLtb]
  | cons a as ih =>
      intro y h
      cases y with
      | nil => simp [listCharLtb] at h
      | cons b bs =>
          rw [listCharLtb_cons_iff] at h
          rcases h with h | ⟨rfl, h⟩
          · rw [Bool.eq_false_iff]
            intro hc
            rw [listCharLtb_cons_iff] at hc
            rcases hc with hc | ⟨rfl, _⟩ <;> omega
          · rw [Bool.eq_false_iff]
            intro hc
            rw [listCharLtb_cons_iff] at hc
            rcases hc with hc | ⟨_, hc⟩
            · omega
            · have := ih h
              simp_all

/-- Helper: char lists neither of which precedes the other are equal. -/
lemma listCharLtb_conn : ∀ {x y : List Char},
    listCharLtb x y = false → listCharLtb y x = false → x = y := by
  intro x
  induction x with
  | nil => intro y h1 h2; cases y <;> simp_all [listCharLtb]
  | cons a as ih =>
      intro y h1 h2
      cases y with
      | nil => simp [listCharLtb] at h2
      | cons b bs =>
          rw [Bool.eq_false_iff] at h1 h2
          have hab : a = b := by
            by_contra hne
            rcases Nat.lt_trichotomy a.toNat b.toNat with h | h | h
            · exact h1 (listCharLtb_cons_iff.mpr (Or.inl h))
            · exact hne (char_toNat_inj h)
            · exact h2 (listCharLtb_cons_iff.mpr (Or.inl h))
          subst hab
          have has : listCharLtb as bs = false := by
            rw [Bool.eq_false_iff]
            intro hc
            exact h1 (listCharLtb_cons_iff.mpr (Or.inr ⟨rfl, hc⟩))
          have hbs : listCharLtb bs as = false := by
            rw [Bool.eq_false_iff]
            intro hc
            exact h2 (listCharLtb_cons_iff.mpr (Or.inr ⟨rfl, hc⟩))
          rw [ih has hbs]

/-- Helper: the code-point order on char lists is transitive. -/
lemma listCharLtb_trans : ∀ {x y z : List Char},
    listCharLtb x y = true → listCharLtb y z = true → listCharLtb x z = true := by
  intro x
  induction x with
  | nil =>
      intro y z h1 h2
      cases y with
      | nil => simp [listCharLtb] at h1
      | cons b bs =>
          cases z with
          | nil => simp [listCharLtb] at h2
          | cons c cs => simp [listCharLtb]
  | cons a as ih =>
      intro y z h1 h2
      cases y with
      | nil => simp [listCharLtb] at h1
      | cons b bs =>
          cases z with
          | nil => simp [listCharLtb] at h2
          | cons c cs =>
              rw [listCharLtb_cons_iff] at h1 h2 ⊢
              rcases h1 with h1 | ⟨rfl, h1⟩
              · rcases h2 with h2 | ⟨rfl, h2⟩
                · exact Or.inl (by omega)
                · exact Or.inl h1
              · rcases h2 with h2 | ⟨rfl, h2⟩
                · exact Or.inl h2
                · exact Or.inr ⟨rfl, ih h1 h2⟩

/-- Helper: string order irreflexivity. -/
lemma strLtb_irrefl (a : String) : strLtb a a = false :=
  listCharLtb_irrefl a.data

/-- Helper: string order asymmetry. -/
lemma strLtb_asymm {a b : String} (h : strLtb a b = true) : strLtb b a = false :=
  listCharLtb_asymm h

/-- Helper: strings neither of which precedes the other are equal. -/
lemma strLtb_conn {a b : String} (h1 : strLtb a b = false)
    (h2 : strLtb b a = false) : a = b := by
  have h := listCharLtb_conn h1 h2
  cases a
  cases b
  exact congrArg String.mk (by simpa using h)

/-- Helper: string order transitivity. -/
lemma strLtb_trans {a b c : String} (h1 : strLtb a b = true)
    (h2 : strLtb b c = true) : strLtb a c = true :=
  listCharLtb_trans h1 h2

/-- Helper: distinct strings are strictly comparable. -/
lemma strLtb_total_of_ne {a b : String} (hne : a ≠ b)
    (h : strLtb a b = false) : strLtb b a = true := by
  by_contra hc
  rw [Bool.not_eq_true] at hc
  exact hne (strLtb_conn h hc)

/-- Helper: the string order is a strict order, so a ≠ b when a < b. -/
lemma strLtb_ne {a b : String} (h : strLtb a b = true) : a ≠ b := by
  intro hab
  subst hab
  rw [strLtb_irrefl] at h
  cases h

/-- Helper: set insertion into a sorted string list commutes, ordered
case. -/
lemma insSortedStr_comm_lt {a b : String} (hab : strLtb a b = true) :
    ∀ l, insSortedStr a (insSortedStr b l) = insSortedStr b (insSortedStr a l) := by
  have hba : strLtb b a = false := strLtb_asymm hab
  have hne : a ≠ b := strLtb_ne hab
  have hne2 : b ≠ a := fun h => hne h.symm
  intro l
  induction l with
  | nil => simp [insSortedStr, hab, hba, hne2]
  | cons y ys ih =>
      by_cases hby : strLtb b y = true
      · have hay : strLtb a y = true := strLtb_trans hab hby
        simp [insSortedStr, hab, hba, hne2, hby, hay]
      · by_cases hbeqy : b = y
        · subst hbeqy
          simp [insSortedStr, hab, hba, hne2, strLtb_irrefl]
        · have hyb : strLtb y b = true :=
            strLtb_total_of_ne hbeqy (by simpa using hby)
          by_cases hay : strLtb a y = true
          · simp [insSortedStr, hab, hba, hne2, hby, hbeqy, hay]
          · by_cases haey : a = y
            · subst haey
              simp [insSortedStr, hba, hne2, strLtb_irrefl, hby, hbeqy]
            · have hya : strLtb y a = true :=
                strLtb_total_of_ne haey (by simpa using hay)
              simp [insSortedStr, hby, hbeqy, hay, haey, ih]

/-- Helper: set insertion into a sorted string list commutes. -/
lemma insSortedStr_comm (a b : String) (l : List String) :
    insSortedStr a (insSortedStr b l) = insSortedStr b (insSortedStr a l) := by
  by_cases hab : a = b
  · subst hab; rfl
  · by_cases h : strLtb a b = true
    · exact insSortedStr_comm_lt h l
    · exact (insSortedStr_comm_lt (strLtb_total_of_ne hab (by simpa using h)) l).symm

/-- Helper: the two-element set is order-independent. -/
lemma insSortedStr_pair (v1 v2 : String) :
    insSortedStr v1 [v2] = insSortedStr v2 [v1] := by
  have h := insSortedStr_comm v1 v2 []
  simpa [insSortedStr] using h

/-- Helper: two insertions under the same key commute. -/
lemma pinsert_comm_eq (k v1 v2 : String) :
    ∀ P, pinsert k v1 (pinsert k v2 P) = pinsert k v2 (pinsert k v1 P) := by
  intro P
  induction P with
  | nil => simp [pinsert, strLtb_irrefl, insSortedStr_comm, insSortedStr_pair]
  | cons kv rest ih =>
      obtain ⟨k2, s⟩ := kv
      by_cases hk : strLtb k k2 = true
      · simp [pinsert, hk, strLtb_irrefl, insSortedStr_comm, insSortedStr_pair]
      · by_cases he : k = k2
        · subst he
          simp [pinsert, hk, insSortedStr_comm]
        · simp [pinsert, hk, he, ih]

/-- Helper: two insertions under ordered distinct keys commute. -/
lemma pinsert_comm_lt {k1 k2 : String} (v1 v2 : String)
    (hab : strLtb k1 k2 = true) :
    ∀ P, pinsert k1 v1 (pinsert k2 v2 P) = pinsert k2 v2 (pinsert k1 v1 P) := by
  have hba : strLtb k2 k1 = false := strLtb_asymm hab
  have hne : k1 ≠ k2 := strLtb_ne hab
  have hne2 : k2 ≠ k1 := fun h => hne h.symm
  intro P
  induction P with
  | nil => simp [pinsert, hab, hba, hne2]
  | cons kv rest ih =>
      obtain ⟨ky, s⟩ := kv
      by_cases hby : strLtb k2 ky = true
      · have hay : strLtb k1 ky = true := strLtb_trans hab hby
        simp [pinsert, hab, hba, hne2, hby, hay]
      · by_cases hbeqy : k2 = ky
        · subst hbeqy
          simp [pinsert, hab, hba, hne2, strLtb_irrefl]
        · have hyb : strLtb ky k2 = true :=
            strLtb_total_of_ne hbeqy (by simpa using hby)
          by_cases hay : strLtb k1 ky = true
          · simp [pinsert, hab, hba, hne2, hby, hbeqy, hay]
          · by_cases haey : k1 = ky
            · subst haey
              simp [pinsert, hba, hne2, strLtb_irrefl, hby, hbeqy]
            · have hya : strLtb ky k1 = true :=
                strLtb_total_of_ne haey (by simpa using hay)
              simp [pinsert, hby, hbeqy, hay, haey, ih]

/-- Helper: insertions into the canonical patterns map commute. -/
lemma pinsert_comm (k1 v1 k2 v2 : String) (P : Patterns) :
    pinsert k1 v1 (pinsert k2 v2 P) = pinsert k2 v2 (pinsert k1 v1 P) := by
  by_cases hk : k1 = k2
  · subst hk; exact pinsert_comm_eq k1 v1 v2 P
  · by_cases h : strLtb k1 k2 = true
    · exact pinsert_comm_lt v1 v2 h P
    · exact (pinsert_comm_lt v2 v1 (strLtb_total_of_ne hk (by simpa using h)) P).symm

/-- Whether a path name contains a slash (the split at line 225 finds
one). -/
def hasSlash (s : String) : Bool := s.data.contains '/'

/-- Helper: breakSlash finds a split exactly when a slash occurs. -/
lemma breakSlash_isSome (cs : List Char) :
    (breakSlash cs).isSome = cs.contains '/' := by
  induction cs with
  | nil => rfl
  | cons c cs ih =>
      by_cases hc : c = '/'
      · subst hc
        simp [breakSlash, List.contains_cons]
      · have hb : (('/' : Char) == c) = false := by
          rw [beq_eq_false_iff_ne]
          exact fun h => hc h.symm
        cases hbs : breakSlash cs with
        | none =>
            rw [hbs] at ih
            simp only [Option.isSome_none] at ih
            simp [breakSlash, hc, hbs]
            exact ⟨fun h => hc h.symm, by simpa using ih.symm⟩
        | some ab =>
            rw [hbs] at ih
            obtain ⟨a, b⟩ := ab
            simp only [Option.isSome_some] at ih
            simp [breakSlash, hc, hbs]
            exact Or.inr (by simpa using ih.symm)

/-- Helper: splitOnceSlash succeeds exactly on slash-containing names. -/
lemma splitOnceSlash_isSome (p : String) :
    (splitOnceSlash p).isSome = hasSlash p := by
  unfold splitOnceSlash hasSlash
  rw [← breakSlash_isSome]
  cases breakSlash p.data with
  | none => rfl
  | some ab => obtain ⟨a, b⟩ := ab; rfl

/-- Helper: pinsert never yields the empty map. -/
lemma pinsert_ne_nil (k v : String) (P : Patterns) : pinsert k v P ≠ [] := by
  cases P with
  | nil => simp [pinsert]
  | cons kv rest =>
      obtain ⟨k2, s⟩ := kv
      simp only [pinsert]
      split_ifs <;> simp

/-- Helper: adjacent paths of the same slash kind can be processed in
either order. -/
lemma buildLoop_swap (x y : String) (hxy : hasSlash x = hasSlash y)
    (t : List String) (st : BuildState) :
    buildLoop st (x :: y :: t) = buildLoop st (y :: x :: t) := by
  cases hx : hasSlash x with
  | true =>
      have hy : hasSlash y = true := by rw [← hxy, hx]
      obtain ⟨⟨ax, bx⟩, hsx⟩ : ∃ ab, splitOnceSlash x = some ab :=
        Option.isSome_iff_exists.mp (by rw [splitOnceSlash_isSome, hx])
      obtain ⟨⟨ay, b2⟩, hsy⟩ : ∃ ab, splitOnceSlash y = some ab :=
        Option.isSome_iff_exists.mp (by rw [splitOnceSlash_isSome, hy])
      simp only [buildLoop, processPath, hsx, hsy]
      rw [pinsert_comm]
  | false =>
      have hy : hasSlash y = false := by rw [← hxy, hx]
      have hsx : splitOnceSlash x = Option.none := by
        have := splitOnceSlash_isSome x
        rw [hx] at this
        exact Option.not_isSome_iff_eq_none.mp (by simp [this])
      have hsy : splitOnceSlash y = Option.none := by
        have := splitOnceSlash_isSome y
        rw [hy] at this
        exact Option.not_isSome_iff_eq_none.mp (by simp [this])
      by_cases hcond : st.patterns ≠ [] ∧ st.flag = false
      · simp only [buildLoop, processPath, hsx, hsy, if_pos hcond]
      · simp only [buildLoop, processPath, hsx, hsy, if_neg hcond]
        have hcond2 : ¬((pinsert (bareSplit y).1 (bareSplit y).2 st.patterns ≠ [] ∧
            (true : Bool) = false)) := by simp
        have hcond3 : ¬((pinsert (bareSplit x).1 (bareSplit x).2 st.patterns ≠ [] ∧
            (true : Bool) = false)) := by simp
        simp only [if_neg hcond2, if_neg hcond3]
        rw [pinsert_comm]

/-- Helper: the accumulation loop is invariant under permutation of a
list whose names all have the same slash kind. -/
lemma buildLoop_perm : ∀ {l l2 : List String}, l.Perm l2 →
    (∀ x ∈ l, ∀ y ∈ l, hasSlash x = hasSlash y) →
    ∀ st, buildLoop st l = buildLoop st l2 := by
  intro l l2 hp
  induction hp with
  | nil => intro _ st; rfl
  | cons x hsub ih =>
      intro hh st
      have hh2 : ∀ a ∈ _, ∀ b ∈ _, hasSlash a = hasSlash b := fun a ha b hb =>
        hh a (List.mem_cons_of_mem x ha) b (List.mem_cons_of_mem x hb)
      cases hpx : processPath st x with
      | error e => simp only [buildLoop, hpx]
      | ok st2 =>
          simp only [buildLoop, hpx]
          exact ih hh2 st2
  | swap a b t =>
      intro hh st
      exact (buildLoop_swap b a
        (hh b (List.mem_cons_self b (a :: t)) a
          (List.mem_cons_of_mem b (List.mem_cons_self a t)))
        t st)
  | trans h1 h2 ih1 ih2 =>
      intro hh st
      have hh2 : ∀ x ∈ _, ∀ y ∈ _, hasSlash x = hasSlash y := fun x hx y hy =>
        hh x (h1.mem_iff.mpr hx) y (h1.mem_iff.mpr hy)
      rw [ih1 hh st, ih2 hh2 st]

/-- Helper: unfolding of maxLen on a cons cell. -/
lemma maxLen_cons (x : String) (l : List String) :
    maxLen (x :: l) = max x.length (maxLen l) := rfl

/-- Helper: the longest length is invariant under permutation. -/
lemma maxLen_perm : ∀ {l l2 : List String}, l.Perm l2 → maxLen l = maxLen l2 := by
  intro l l2 hp
  induction hp with
  | nil => rfl
  | cons x h ih => rw [maxLen_cons, maxLen_cons, ih]
  | swap a b t => rw [maxLen_cons, maxLen_cons, maxLen_cons, maxLen_cons,
      Nat.max_left_comm]
  | trans h1 h2 ih1 ih2 => rw [ih1, ih2]

/-- C9 counterexample: the two-element lists with paths a/b and 3 are
permutations of each other, yet make_pattern raises the flag assertion
on one ordering and returns the string 3,ab on the other, so
make_pattern is not order-insensitive in general. -/
theorem C9_counterexample_order_sensitivity :
    (["a/b", "3"] : List String).Perm ["3", "a/b"] ∧
    make_pattern ["a/b", "3"] ≠ make_pattern ["3", "a/b"] ∧
    make_pattern ["3", "a/b"] = .ok "3,ab" := by
  refine ⟨?_, ?_, ?_⟩ <;> decide

/-- C9 amended: make_pattern is order-insensitive on homogeneous lists,
in which either every name contains a slash or none does (mixing the two
kinds makes the line-228 assert depend on the order, as the
counterexample shows): permuting the input does not change the result. -/
theorem C9_amended_make_pattern_perm_invariant (l l2 : List String)
    (hp : l.Perm l2)
    (hh : (∀ p ∈ l, hasSlash p = true) ∨ (∀ p ∈ l, hasSlash p = false)) :
    make_pattern l = make_pattern l2 := by
  have hpair : ∀ x ∈ l, ∀ y ∈ l, hasSlash x = hasSlash y := by
    rcases hh with hh | hh <;> intro x hx y hy <;> rw [hh x hx, hh y hy]
  have hbuild := buildLoop_perm hp hpair bs0
  have hmax := maxLen_perm hp
  unfold make_pattern
  rw [hmax]
  show make_pattern_go (Nat.succ (maxLen l2)) l = make_pattern_go (Nat.succ (maxLen l2)) l2
  rw [make_pattern_go, make_pattern_go]
  unfold buildPatterns
  rw [hbuild]

/-- Witness for C9 amended at a concrete homogeneous pair of
permutations. -/
theorem C9_amended_make_pattern_perm_invariant_witness :
    (["Dev1/ao2", "Dev1/ao1"] : List String).Perm ["Dev1/ao1", "Dev1/ao2"] ∧
    ((∀ p ∈ (["Dev1/ao2", "Dev1/ao1"] : List String), hasSlash p = true) ∨
     (∀ p ∈ (["Dev1/ao2", "Dev1/ao1"] : List String), hasSlash p = false)) ∧
    make_pattern ["Dev1/ao2", "Dev1/ao1"] = make_pattern ["Dev1/ao1", "Dev1/ao2"] :=
  ⟨by decide, by decide,
   C9_amended_make_pattern_perm_invariant ["Dev1/ao2", "Dev1/ao1"]
     ["Dev1/ao1", "Dev1/ao2"] (by decide) (by decide)⟩
